import Mathlib

set_option maxHeartbeats 1000000

/-!
Verification of the plan-text-to-structured-schedule parser and calendar-event
materializer of the GoalMine backend (`src/main.py`).

The embedding follows the source:
* `plan_list_py` models the preprocessing in `generate_plan` (lines 127-133):
  `plan_text.strip()` followed by a list comprehension over `split('\n')`.
* `searchDay`, `searchTopics`, `searchTime` model the three `re.search` calls of
  `sync_calendar` (lines 244-246) for the patterns `Day (\d+): (.+)`,
  `Topics: (.+?)(?=Time Allotted:)` and `Time Allotted: (.+)`.  Python's `.`
  does not match a newline, `(.+?)` is lazy, and `re.search` returns the
  leftmost match; the definitions implement exactly that for these three
  patterns.
* `parseHM` models `datetime.strptime(f"{date} {t}", "%Y-%m-%d %H:%M")` applied
  to an always-valid date prefix: only the wall-clock part can fail, `%H`
  matching `2[0-3]|[0-1]\d|\d`, `%M` matching `[0-5]\d|\d`, and any leftover
  characters raising ("unconverted data remains").  A `none` result models the
  `ValueError` the call raises.
* `slotStep`/`processSlots` model the inner loop over `time_slots.split(';')`
  (lines 257-290); `Except.error` models an uncaught Python exception, which the
  surrounding `try` of the endpoint converts into an HTTP 500 response.
* `buildEvents`/`syncCalendar` model the whole event-building part of the
  `/sync-calendar` endpoint; dates are represented by their proleptic Gregorian
  ordinal (an integer), so `datetime.now() + timedelta(days=day_num-1)` becomes
  `refDate + day_num - 1`, exact integer arithmetic, as in `datetime`.
  Calendar credentials are assumed present and every insert is assumed to
  succeed (both are external collaborators).  Every exception raised inside
  the endpoint's `try`, including its own `HTTPException(400)` for an empty
  plan, is caught by the `except Exception` at line 323 and surfaced as an
  HTTP 500 `Failed to sync calendar: ...` response.
-/

namespace GoalMine

/-- Characters removed by Python `str.strip()`. -/
def isPySpace (c : Char) : Bool :=
  c = ' ' || c = '\t' || c = '\n' || c = '\r' || c = '\x0b' || c = '\x0c'

/-- Python `str.strip()` on a character list. -/
def pyStripList (cs : List Char) : List Char :=
  ((cs.dropWhile isPySpace).reverse.dropWhile isPySpace).reverse

/-- Python `str.strip()`. -/
def pyStrip (s : String) : String :=
  String.mk (pyStripList s.data)

/-- Python `str.split(sep)` for a one-character separator: keeps empty pieces,
`"".split(sep) == [""]`. -/
def splitOnChar (sep : Char) : List Char → List (List Char)
  | [] => [[]]
  | c :: rest =>
    match splitOnChar sep rest with
    | [] => [[]]
    | h :: t => if c = sep then [] :: h :: t else (c :: h) :: t

/-- ASCII digit test (the `\d` of the regexes on ASCII input). -/
def isDigitCh (c : Char) : Bool := 48 ≤ c.toNat && c.toNat ≤ 57

/-- Numeric value of an ASCII digit. -/
def digitVal (c : Char) : Nat := c.toNat - 48

/-- Python `int()` on a nonempty digit string. -/
def digitsToNat (ds : List Char) : Nat :=
  ds.foldl (fun a c => a * 10 + digitVal c) 0

/-- Match the regex `Day (\d+): (.+)` at the head of the text: literal
`Day `, a nonempty greedy digit run (group 1), literal `: `, then at least one
non-newline character (group 2, greedy up to the end of the line). -/
def matchDayAt (cs : List Char) : Option (List Char × List Char) :=
  match cs with
  | 'D' :: 'a' :: 'y' :: ' ' :: rest =>
    let ds := rest.takeWhile isDigitCh
    (match rest.dropWhile isDigitCh with
     | ':' :: ' ' :: r3 =>
       let lbl := r3.takeWhile (fun c => c != '\n')
       if ds.isEmpty || lbl.isEmpty then none else some (ds, lbl)
     | _ => none)
  | _ => none

/-- `re.search(r'Day (\d+): (.+)', day)`: leftmost position where the pattern
matches; returns (group 1, group 2). -/
def searchDay : List Char → Option (List Char × List Char)
  | [] => none
  | c :: cs =>
    match matchDayAt (c :: cs) with
    | some r => some r
    | none => searchDay cs

/-- The lazy group `(.+?)` followed by the lookahead `(?=pat)`: the shortest
nonempty run of non-newline characters after which `pat` starts. -/
def lazyGroupBefore (pat : List Char) : List Char → Option (List Char)
  | [] => none
  | c :: cs =>
    if c = '\n' then none
    else if pat.isPrefixOf cs then some [c]
    else
      match lazyGroupBefore pat cs with
      | some g => some (c :: g)
      | none => none

/-- Match `Topics: (.+?)(?=Time Allotted:)` at the head of the text. -/
def matchTopicsAt (cs : List Char) : Option (List Char) :=
  if ("Topics: ".data).isPrefixOf cs then
    lazyGroupBefore ("Time Allotted:".data) (cs.drop 8)
  else none

/-- `re.search(r'Topics: (.+?)(?=Time Allotted:)', day)`: leftmost match,
returning group 1. -/
def searchTopics : List Char → Option (List Char)
  | [] => none
  | c :: cs =>
    match matchTopicsAt (c :: cs) with
    | some g => some g
    | none => searchTopics cs

/-- Match `Time Allotted: (.+)` at the head of the text. -/
def matchTimeAt (cs : List Char) : Option (List Char) :=
  if ("Time Allotted: ".data).isPrefixOf cs then
    (let g := (cs.drop 15).takeWhile (fun c => c != '\n')
     if g.isEmpty then none else some g)
  else none

/-- `re.search(r'Time Allotted: (.+)', day)`: leftmost match, returning
group 1. -/
def searchTime : List Char → Option (List Char)
  | [] => none
  | c :: cs =>
    match matchTimeAt (c :: cs) with
    | some g => some g
    | none => searchTime cs

/-- The data extracted from one plan element when all three regexes match:
`day_num = int(...)`, `topics = ....strip()`, `time_slots = ....strip()`
(lines 249-251 of `src/main.py`). -/
structure DayRecord where
  day_number : Nat
  topics : String
  time_slots : String
deriving DecidableEq

/-- One iteration of the `for day in plan` loop header (lines 244-251): run the
three searches and build the record only when all three matched. -/
def parseDay (s : String) : Option DayRecord :=
  match searchDay s.data, searchTopics s.data, searchTime s.data with
  | some dm, some tg, some tsg =>
    some { day_number := digitsToNat dm.1
           topics := pyStrip (String.mk tg)
           time_slots := pyStrip (String.mk tsg) }
  | _, _, _ => none

/-- The Plan Parser: the records produced by the loop, in input order. -/
def parsePlan (plan : List String) : List DayRecord :=
  plan.filterMap parseDay

/-- Python strptime `%M` at the end of the data string: `[0-5]\d|\d`, after
which the whole string must be consumed (leftover characters raise). -/
def parseMinuteEnd : List Char → Option Nat
  | [a, b] =>
    if isDigitCh a && a.toNat ≤ 53 && isDigitCh b then
      some (digitVal a * 10 + digitVal b)
    else none
  | [a] => if isDigitCh a then some (digitVal a) else none
  | _ => none

/-- Python strptime of the wall-clock part with format `%H:%M`: `%H` is
`2[0-3]|[0-1]\d|\d` (a two-digit value 00-23, else one digit), then `:`, then
the minutes; `none` models the `ValueError` raised on failure. -/
def parseHM (cs : List Char) : Option (Nat × Nat) :=
  match cs with
  | a :: b :: ':' :: ms =>
    if isDigitCh a && isDigitCh b && decide (digitVal a * 10 + digitVal b ≤ 23) then
      (parseMinuteEnd ms).map (fun m => (digitVal a * 10 + digitVal b, m))
    else none
  | a :: ':' :: ms =>
    if isDigitCh a then (parseMinuteEnd ms).map (fun m => (digitVal a, m)) else none
  | _ => none

/-- The calendar-event dictionary built at lines 271-289 of `src/main.py`.
`startDate`/`endDate` are proleptic Gregorian ordinals of the `dateTime` date
parts; `startTime`/`endTime` the (hour, minute) wall-clock parts. -/
structure Event where
  summary : String
  description : String
  startDate : Int
  startTime : Nat × Nat
  startTimeZone : String
  endDate : Int
  endTime : Nat × Nat
  endTimeZone : String
  useDefaultReminders : Bool
  reminderOverrides : List (String × Nat)
deriving DecidableEq

/-- The event value built for one interval of one day record. -/
def mkEvent (dayNum : Nat) (topics : String) (d : Int) (stv etv : Nat × Nat) : Event :=
  { summary := "Study Session: " ++ topics
    description := "Study plan for Day " ++ toString dayNum ++ "\n\nTopics: " ++ topics
    startDate := d
    startTime := stv
    startTimeZone := "UTC"
    endDate := d
    endTime := etv
    endTimeZone := "UTC"
    useDefaultReminders := false
    reminderOverrides := [("email", 24 * 60), ("popup", 30)] }

/-- Outcome of one `time_slot` candidate: no `-` means the body is skipped;
with a `-`, either both stripped halves parse as `%H:%M` times, or an
exception is raised (tuple unpacking with a part count other than two, or a
`strptime` failure). -/
inductive SlotStep where
  | skipIt : SlotStep
  | eventIt : Nat × Nat → Nat × Nat → SlotStep
  | failIt : String → SlotStep
deriving DecidableEq

/-- One iteration of `for time_slot in time_slots.split(';')` (lines 257-269):
the guard `'-' in time_slot`, then
`start_time, end_time = map(str.strip, time_slot.split('-'))`, then the two
`strptime` calls. -/
def slotStep (slot : List Char) : SlotStep :=
  if slot.contains '-' then
    match (splitOnChar '-' slot).map pyStripList with
    | [st, en] =>
      match parseHM st with
      | none => .failIt ("time data does not match format: " ++ String.mk st)
      | some stv =>
        match parseHM en with
        | none => .failIt ("time data does not match format: " ++ String.mk en)
        | some etv => .eventIt stv etv
    | _ => .failIt "too many values to unpack"
  else .skipIt

/-- The slot loop: events are appended in order; an exception aborts the whole
request (the events list is never used afterwards). -/
def processSlots (dayNum : Nat) (topics : String) (d : Int) :
    List (List Char) → Except String (List Event)
  | [] => .ok []
  | slot :: rest =>
    match slotStep slot with
    | .skipIt => processSlots dayNum topics d rest
    | .eventIt stv etv =>
      (processSlots dayNum topics d rest).map
        (fun es => mkEvent dayNum topics d stv etv :: es)
    | .failIt msg => .error msg

/-- The candidate interval strings of a record: `time_slots.split(';')`. -/
def candidateSlots (r : DayRecord) : List (List Char) :=
  splitOnChar ';' r.time_slots.data

/-- The Event Materializer for one day record: line 254 computes
`event_date = now + timedelta(days=day_num-1)`, then the slot loop runs with
that date. -/
def materializeDay (refDate : Int) (r : DayRecord) : Except String (List Event) :=
  processSlots r.day_number r.topics (refDate + (r.day_number : Int) - 1)
    (candidateSlots r)

/-- The whole event-building loop of `sync_calendar` (lines 241-290). -/
def buildEvents (refDate : Int) : List String → Except String (List Event)
  | [] => .ok []
  | day :: rest =>
    match parseDay day with
    | none => buildEvents refDate rest
    | some r =>
      match materializeDay refDate r with
      | .error msg => .error msg
      | .ok es =>
        match buildEvents refDate rest with
        | .error msg => .error msg
        | .ok es2 => .ok (es ++ es2)

/-- Observable outcome of the `/sync-calendar` endpoint: the catch-all 500
handler or the success payload.  The endpoint can surface nothing else: its
only `HTTPException(400)` is raised inside the `try`, so the
`except Exception` at line 323 catches it (`HTTPException` subclasses
`Exception`) and re-raises it as a 500. -/
inductive SyncResult where
  | serverError : String → SyncResult
  | success : String → List Event → SyncResult
deriving DecidableEq

/-- The `/sync-calendar` endpoint, with credentials present and every calendar
insert succeeding (external collaborators).  An empty plan triggers
`raise HTTPException(400, "Missing required data")` at line 214, which the
endpoint's own catch-all turns into a 500 whose detail prepends
`Failed to sync calendar: ` to `str(e)`, and `str` of that exception is
`400: Missing required data`; any other uncaught exception takes the same
catch-all path; otherwise the success message counts the created events. -/
def syncCalendar (refDate : Int) (plan : List String) : SyncResult :=
  if plan.isEmpty then
    .serverError ("Failed to sync calendar: " ++ "400: Missing required data")
  else
    match buildEvents refDate plan with
    | .error msg => .serverError ("Failed to sync calendar: " ++ msg)
    | .ok es => .success ("Successfully created " ++ toString es.length ++ " calendar events") es

/-- The filter of the `generate_plan` list comprehension (line 132):
`line.strip() and not line.startswith('```')` on the raw line. -/
def keepLine (line : List Char) : Bool :=
  !(pyStripList line).isEmpty && !(("```".data).isPrefixOf line)

/-- The preprocessing of `generate_plan` (lines 127-133):
`plan_text.strip()` then the comprehension over `split('\n')`. -/
def plan_list_py (raw : String) : List String :=
  ((splitOnChar '\n' (pyStrip raw).data).filter keepLine).map
    (fun l => String.mk (pyStripList l))

/-- Modelled from the spec: the preprocessing as claim C9 words it — "the
sequence of lines of the input that are non-empty after trimming, each trimmed
of surrounding whitespace, with every line introduced by a fenced-code marker
discarded, preserving input order" (no whole-text strip). -/
def specPreprocess (raw : String) : List String :=
  ((splitOnChar '\n' raw.data).filter keepLine).map
    (fun l => String.mk (pyStripList l))

/-- Gregorian leap year, as in Python `calendar.isleap`. -/
def isLeapYear (y : Nat) : Bool := (y % 4 == 0 && y % 100 != 0) || y % 400 == 0

/-- Length of a month. -/
def daysInMonth (y m : Nat) : Nat :=
  if m = 2 then (if isLeapYear y then 29 else 28)
  else if m = 4 || m = 6 || m = 9 || m = 11 then 30
  else 31

/-- Days in year `y` before month `m`. -/
def daysBeforeMonth (y m : Nat) : Nat :=
  ((List.range (m - 1)).map (fun i => daysInMonth y (i + 1))).foldl (fun a b => a + b) 0

/-- Python `datetime.date(y, m, d).toordinal()`: proleptic Gregorian ordinal,
day 1 = 0001-01-01. -/
def toOrdinal (y m d : Nat) : Nat :=
  (y - 1) * 365 + (y - 1) / 4 - (y - 1) / 100 + (y - 1) / 400 + daysBeforeMonth y m + d

/-- A plan element on which all three regexes match. -/
def validBlock (s : String) : Bool :=
  (searchDay s.data).isSome && (searchTopics s.data).isSome && (searchTime s.data).isSome

/-- The record a valid block yields (junk values on invalid blocks). -/
def extractRecord (s : String) : DayRecord :=
  { day_number := digitsToNat ((searchDay s.data).getD ([], [])).1
    topics := pyStrip (String.mk ((searchTopics s.data).getD []))
    time_slots := pyStrip (String.mk ((searchTime s.data).getD [])) }

/-- Strict wall-clock order `(h, m) < (h', m')`. -/
def timeLt (a b : Nat × Nat) : Prop := a.1 < b.1 ∨ (a.1 = b.1 ∧ a.2 < b.2)

/-- Does this candidate raise inside the slot loop? -/
def isFailSlot (slot : List Char) : Bool :=
  match slotStep slot with
  | .failIt _ => true
  | _ => false

/-- A candidate without `-` is skipped by the loop body guard. -/
theorem slotStep_skipIt {slot : List Char} (h : slot.contains '-' = false) :
    slotStep slot = .skipIt := by
  unfold slotStep
  rw [h]
  rfl

/-- With a `-` present, the body splits on `-`, strips, and parses. -/
theorem slotStep_contains_true (slot : List Char) (hc : slot.contains '-' = true) :
    slotStep slot =
      (match (splitOnChar '-' slot).map pyStripList with
       | [st, en] =>
         match parseHM st with
         | none => .failIt ("time data does not match format: " ++ String.mk st)
         | some stv =>
           match parseHM en with
           | none => .failIt ("time data does not match format: " ++ String.mk en)
           | some etv => .eventIt stv etv
       | _ => .failIt "too many values to unpack") := by
  unfold slotStep
  rw [hc]
  rfl

/-- Only candidates containing `-` can produce an event. -/
theorem contains_of_eventIt {slot : List Char} {stv etv : Nat × Nat}
    (h : slotStep slot = .eventIt stv etv) : slot.contains '-' = true := by
  by_contra hc
  rw [Bool.not_eq_true] at hc
  rw [slotStep_skipIt hc] at h
  exact SlotStep.noConfusion h

/-- A candidate containing `-` that does not raise produces an event. -/
theorem eventIt_of_not_fail {slot : List Char} (hc : slot.contains '-' = true)
    (hf : isFailSlot slot = false) : ∃ stv etv, slotStep slot = .eventIt stv etv := by
  rcases h : slotStep slot with _ | ⟨stv, etv⟩ | msg
  · exfalso
    rw [slotStep_contains_true slot hc] at h
    split at h
    · split at h
      · exact SlotStep.noConfusion h
      · split at h
        · exact SlotStep.noConfusion h
        · exact SlotStep.noConfusion h
    · exact SlotStep.noConfusion h
  · exact ⟨stv, etv, rfl⟩
  · exfalso
    have ht : isFailSlot slot = true := by
      unfold isFailSlot
      rw [h]
    rw [ht] at hf
    exact Bool.noConfusion hf

/-- Minutes parsed by `%M` are at most 59. -/
theorem parseMinuteEnd_le {ms : List Char} {m : Nat} (h : parseMinuteEnd ms = some m) :
    m ≤ 59 := by
  unfold parseMinuteEnd at h
  split at h
  · split at h
    · rename_i cond
      simp only [Bool.and_eq_true, decide_eq_true_eq] at cond
      injection h with h
      subst h
      unfold digitVal isDigitCh at *
      simp only [Bool.and_eq_true, decide_eq_true_eq] at *
      omega
    · exact Option.noConfusion h
  · split at h
    · rename_i cond
      injection h with h
      subst h
      unfold digitVal isDigitCh at *
      simp only [Bool.and_eq_true, decide_eq_true_eq] at *
      omega
    · exact Option.noConfusion h
  · exact Option.noConfusion h

/-- Times parsed by `%H:%M` are valid wall-clock times. -/
theorem parseHM_bounds {cs : List Char} {hm : Nat × Nat} (h : parseHM cs = some hm) :
    hm.1 ≤ 23 ∧ hm.2 ≤ 59 := by
  unfold parseHM at h
  split at h
  · split at h
    · rename_i cond
      simp only [Bool.and_eq_true, decide_eq_true_eq] at cond
      rcases hme : parseMinuteEnd _ with _ | m
      · rw [hme] at h
        exact Option.noConfusion h
      · rw [hme] at h
        injection h with h
        subst h
        exact ⟨cond.2, parseMinuteEnd_le hme⟩
    · exact Option.noConfusion h
  · split at h
    · rename_i cond
      rcases hme : parseMinuteEnd _ with _ | m
      · rw [hme] at h
        exact Option.noConfusion h
      · rw [hme] at h
        injection h with h
        subst h
        refine ⟨?_, parseMinuteEnd_le hme⟩
        unfold digitVal isDigitCh at *
        simp only [Bool.and_eq_true, decide_eq_true_eq] at *
        omega
    · exact Option.noConfusion h
  · exact Option.noConfusion h

/-- The two times of a produced event are valid wall-clock times. -/
theorem slotStep_eventIt_bounds {slot : List Char} {stv etv : Nat × Nat}
    (h : slotStep slot = .eventIt stv etv) :
    stv.1 ≤ 23 ∧ stv.2 ≤ 59 ∧ etv.1 ≤ 23 ∧ etv.2 ≤ 59 := by
  have hc := contains_of_eventIt h
  rw [slotStep_contains_true slot hc] at h
  split at h
  · rcases h1 : parseHM _ with _ | stv'
    · rw [h1] at h
      exact SlotStep.noConfusion h
    · rw [h1] at h
      rcases h2 : parseHM _ with _ | etv'
      · rw [h2] at h
        exact SlotStep.noConfusion h
      · rw [h2] at h
        injection h with e1 e2
        subst e1
        subst e2
        obtain ⟨a1, a2⟩ := parseHM_bounds h1
        obtain ⟨b1, b2⟩ := parseHM_bounds h2
        exact ⟨a1, a2, b1, b2⟩
  · exact SlotStep.noConfusion h

/-- Every event in a successful slot-loop run is the `mkEvent` of some
candidate of the list that stepped to an event. -/
theorem processSlots_ok_mem {dayNum : Nat} {topics : String} {d : Int} :
    ∀ {slots : List (List Char)} {es : List Event},
      processSlots dayNum topics d slots = .ok es →
      ∀ e ∈ es, ∃ stv etv slot, slot ∈ slots ∧ slotStep slot = .eventIt stv etv ∧
        e = mkEvent dayNum topics d stv etv := by
  intro slots
  induction slots with
  | nil =>
    intro es h e he
    simp only [processSlots] at h
    injection h with h
    subst h
    exact absurd he (List.not_mem_nil e)
  | cons slot rest ih =>
    intro es h e he
    simp only [processSlots] at h
    rcases hs : slotStep slot with _ | ⟨stv, etv⟩ | msg <;> rw [hs] at h
    · obtain ⟨a, b, sl, hm, hst, he'⟩ := ih h e he
      exact ⟨a, b, sl, List.mem_cons_of_mem _ hm, hst, he'⟩
    · rcases hr : processSlots dayNum topics d rest with msg | es' <;> rw [hr] at h
      · exact Except.noConfusion h
      · simp only [Except.map] at h
        injection h with h
        subst h
        rcases List.mem_cons.mp he with he1 | he2
        · exact ⟨stv, etv, slot, List.mem_cons_self _ _, hs, he1⟩
        · obtain ⟨a, b, sl, hm, hst, he'⟩ := ih hr e he2
          exact ⟨a, b, sl, List.mem_cons_of_mem _ hm, hst, he'⟩
    · exact Except.noConfusion h

/-- If no candidate raises, the slot loop succeeds and produces exactly one
event per candidate containing `-`. -/
theorem processSlots_ok_count {dayNum : Nat} {topics : String} {d : Int} :
    ∀ slots : List (List Char), (∀ s ∈ slots, isFailSlot s = false) →
      ∃ es, processSlots dayNum topics d slots = .ok es ∧
        es.length = (slots.filter (fun s => s.contains '-')).length := by
  intro slots
  induction slots with
  | nil => exact fun _ => ⟨[], rfl, rfl⟩
  | cons slot rest ih =>
    intro h
    have hrest : ∀ s ∈ rest, isFailSlot s = false :=
      fun s hs => h s (List.mem_cons_of_mem _ hs)
    obtain ⟨es, he, hl⟩ := ih hrest
    cases hc : slot.contains '-' with
    | false =>
      have hc' : '-' ∉ slot := by simpa using hc
      refine ⟨es, ?_, ?_⟩
      · simp only [processSlots]
        rw [slotStep_skipIt hc]
        exact he
      · rw [hl]
        simp [List.filter_cons, hc']
    | true =>
      have hc' : '-' ∈ slot := by simpa using hc
      obtain ⟨stv, etv, hev⟩ := eventIt_of_not_fail hc (h slot (List.mem_cons_self _ _))
      refine ⟨mkEvent dayNum topics d stv etv :: es, ?_, ?_⟩
      · simp only [processSlots]
        rw [hev, he]
        rfl
      · simp [List.filter_cons, hc', hl]

/-- If no candidate contains `-`, the slot loop produces no events. -/
theorem processSlots_all_skip {dayNum : Nat} {topics : String} {d : Int} :
    ∀ slots : List (List Char), (∀ s ∈ slots, s.contains '-' = false) →
      processSlots dayNum topics d slots = .ok [] := by
  intro slots
  induction slots with
  | nil => exact fun _ => rfl
  | cons slot rest ih =>
    intro h
    simp only [processSlots]
    rw [slotStep_skipIt (h slot (List.mem_cons_self _ _))]
    exact ih (fun s hs => h s (List.mem_cons_of_mem _ hs))

/-- A plan in which no element matches all three regexes yields no events. -/
theorem buildEvents_all_none (refDate : Int) :
    ∀ plan : List String, (∀ s ∈ plan, parseDay s = none) →
      buildEvents refDate plan = .ok [] := by
  intro plan
  induction plan with
  | nil => exact fun _ => rfl
  | cons s rest ih =>
    intro h
    simp only [buildEvents]
    rw [h s (List.mem_cons_self _ _)]
    exact ih (fun x hx => h x (List.mem_cons_of_mem _ hx))

/-- A plan element yields a record exactly when all three regexes match, and
the record is the one extracted from the three match groups. -/
theorem parseDay_eq (s : String) :
    parseDay s = if validBlock s then some (extractRecord s) else none := by
  unfold parseDay validBlock extractRecord
  rcases h1 : searchDay s.data with _ | dm <;>
    rcases h2 : searchTopics s.data with _ | tg <;>
      rcases h3 : searchTime s.data with _ | tsg <;>
        simp [h1, h2, h3]

/-- The Plan Parser keeps exactly the valid blocks, in input order, mapping
each to its extracted record. -/
theorem parsePlan_eq (plan : List String) :
    parsePlan plan = (plan.filter validBlock).map extractRecord := by
  induction plan with
  | nil => rfl
  | cons s rest ih =>
    simp only [parsePlan, List.filterMap_cons] at *
    rw [parseDay_eq s]
    cases hv : validBlock s
    · simp [hv, List.filter_cons, ih]
    · simp [hv, List.filter_cons, ih]

/-- A successful lazy-group match decomposes the text as group then
lookahead pattern. -/
theorem lazyGroupBefore_struct {pat : List Char} :
    ∀ {l g : List Char}, lazyGroupBefore pat l = some g →
      ∃ rest, l = g ++ pat ++ rest := by
  intro l
  induction l with
  | nil =>
    intro g h
    simp [lazyGroupBefore] at h
  | cons c cs ih =>
    intro g h
    simp only [lazyGroupBefore] at h
    split at h
    · exact Option.noConfusion h
    · split at h
      · rename_i hp
        injection h with h
        subst h
        obtain ⟨t, ht⟩ := List.isPrefixOf_iff_prefix.mp hp
        exact ⟨t, by simp [← ht]⟩
      · rcases hr : lazyGroupBefore pat cs with _ | g'
        · rw [hr] at h
          exact Option.noConfusion h
        · rw [hr] at h
          injection h with h
          subst h
          obtain ⟨rest, hrest⟩ := ih hr
          exact ⟨rest, by simp [hrest]⟩

/-- A successful topics match at the head decomposes the text as
`Topics: `, the group, then `Time Allotted:`. -/
theorem matchTopicsAt_struct {l g : List Char} (h : matchTopicsAt l = some g) :
    ∃ rest, l = "Topics: ".data ++ g ++ "Time Allotted:".data ++ rest := by
  unfold matchTopicsAt at h
  split at h
  · rename_i hp
    obtain ⟨t, ht⟩ := List.isPrefixOf_iff_prefix.mp hp
    obtain ⟨rest, hrest⟩ := lazyGroupBefore_struct h
    have h8 : l.drop 8 = t := by
      rw [← ht]
      have hlen : ("Topics: ".data).length = 8 := rfl
      rw [← hlen, List.drop_left]
    rw [h8] at hrest
    refine ⟨rest, ?_⟩
    rw [← ht, hrest]
    simp
  · exact Option.noConfusion h

/-- A successful topics search decomposes the text: the matched `Topics: `
group is followed, in the same string, by `Time Allotted:`. -/
theorem searchTopics_struct :
    ∀ {l g : List Char}, searchTopics l = some g →
      ∃ pre rest, l = pre ++ "Topics: ".data ++ g ++ "Time Allotted:".data ++ rest := by
  intro l
  induction l with
  | nil =>
    intro g h
    simp [searchTopics] at h
  | cons c cs ih =>
    intro g h
    simp only [searchTopics] at h
    rcases hm : matchTopicsAt (c :: cs) with _ | g'
    · rw [hm] at h
      obtain ⟨pre, rest, hp⟩ := ih h
      exact ⟨c :: pre, rest, by simp [hp]⟩
    · rw [hm] at h
      injection h with h
      subst h
      obtain ⟨rest, hr⟩ := matchTopicsAt_struct hm
      exact ⟨[], rest, by simpa using hr⟩

/-- Claim C1, counterexample: in the block
`Day 1: x Topics: A Time Allotted: 09:00-;14:00-15:00`, the malformed
candidate `09:00-` is not skipped: the loop raises (modelled by
`Except.error`), so the remaining candidate `14:00-15:00` is never processed,
refuting "interval parsing never raises for a malformed individual
candidate". -/
theorem claim_C1_counterexample :
    buildEvents 0 ["Day 1: x Topics: A Time Allotted: 09:00-;14:00-15:00"] =
      .error "time data does not match format: " := by
  rfl

/-- Claim C1, amended: a candidate without `-` is skipped and parsing
continues with the remaining candidates of the block; but a candidate
containing `-` that fails to parse (malformed `HH:MM` time, or a `-`-split
with other than two parts) raises, aborting the whole request instead of
being skipped. -/
theorem claim_C1_amended :
    (∀ (dayNum : Nat) (topics : String) (d : Int) (slot : List Char)
        (rest : List (List Char)), slot.contains '-' = false →
      processSlots dayNum topics d (slot :: rest) = processSlots dayNum topics d rest)
    ∧ (∀ (dayNum : Nat) (topics : String) (d : Int) (rest : List (List Char)),
      processSlots dayNum topics d ("09:00-".data :: rest) =
        .error "time data does not match format: ") := by
  constructor
  · intro dayNum topics d slot rest h
    simp only [processSlots]
    rw [slotStep_skipIt h]
  · intro dayNum topics d rest
    rfl

/-- Claim C1, witness: a `-`-free candidate (`garbage`) ahead of a good one is
skipped, leaving the loop result unchanged. -/
theorem claim_C1_witness :
    processSlots 1 "A" 0 ["garbage".data, "14:00-15:00".data] =
      processSlots 1 "A" 0 ["14:00-15:00".data] :=
  claim_C1_amended.1 1 "A" 0 ("garbage".data) ["14:00-15:00".data] (by decide)

/-- Claim C2, counterexample: the block
`Day 0: x Topics: Algebra Time Allotted: 09:00-10:00` is not rejected — no
`InvalidDayNumberError` exists in the code at all — and with reference ordinal
100 the endpoint happily creates an event dated 99, the day before the
reference date. -/
theorem claim_C2_counterexample :
    syncCalendar 100 ["Day 0: x Topics: Algebra Time Allotted: 09:00-10:00"] =
      .success "Successfully created 1 calendar events"
        [mkEvent 0 "Algebra" 99 (9, 0) (10, 0)] ∧
    (99 : Int) < 100 := by
  exact ⟨rfl, by norm_num⟩

/-- Claim C2, amended: a record with `day_number = 0` is not rejected; the
materializer computes `event_date = reference_date + (day_number - 1)` — the
day before the reference date — and produces its events normally. -/
theorem claim_C2_amended (refDate : Int) :
    buildEvents refDate ["Day 0: x Topics: Algebra Time Allotted: 09:00-10:00"] =
      .ok [mkEvent 0 "Algebra" (refDate + ((0 : Nat) : Int) - 1) (9, 0) (10, 0)] ∧
    refDate + ((0 : Nat) : Int) - 1 < refDate := by
  refine ⟨rfl, ?_⟩
  push_cast
  omega

/-- Claim C3, counterexample: an empty plan is not rejected with an
`EmptyPlanError` but with a generic 500 — the inner 400 guard (shared with
missing credentials) is caught by the endpoint's own catch-all and re-raised
as `Failed to sync calendar: 400: Missing required data`; and a non-empty
plan with zero valid blocks does not fail at all — the endpoint returns
success with zero events. -/
theorem claim_C3_counterexample :
    syncCalendar 0 [] =
      .serverError "Failed to sync calendar: 400: Missing required data" ∧
    syncCalendar 0 ["garbage"] =
      .success "Successfully created 0 calendar events" [] := by
  exact ⟨rfl, rfl⟩

/-- Claim C3, amended: an empty plan yields an HTTP 500
`Failed to sync calendar: 400: Missing required data` failure (the inner 400
guard is swallowed by the endpoint's catch-all and re-raised as a 500); a
non-empty plan with zero valid day blocks is not an error — the endpoint
succeeds with zero events (no `EmptyPlanError` exists); and whole-input
processing can fail for other inputs: a malformed `-`-containing interval
candidate inside a valid block yields an HTTP 500 failure. -/
theorem claim_C3_amended :
    (∀ refDate : Int, syncCalendar refDate [] =
      .serverError "Failed to sync calendar: 400: Missing required data")
    ∧ (∀ (refDate : Int) (plan : List String), plan ≠ [] →
      (∀ s ∈ plan, parseDay s = none) →
      syncCalendar refDate plan = .success "Successfully created 0 calendar events" [])
    ∧ (∀ refDate : Int,
      syncCalendar refDate ["Day 1: x Topics: A Time Allotted: 09:00-"] =
        .serverError "Failed to sync calendar: time data does not match format: ") := by
  refine ⟨fun _ => rfl, ?_, fun _ => rfl⟩
  intro refDate plan hne hall
  cases plan with
  | nil => exact absurd rfl hne
  | cons a l =>
    unfold syncCalendar
    rw [buildEvents_all_none refDate (a :: l) hall]
    rfl

/-- Claim C3, witness: a plan of two invalid blocks succeeds with zero
events. -/
theorem claim_C3_witness :
    syncCalendar 0 ["garbage", "Day : y"] =
      .success "Successfully created 0 calendar events" [] :=
  claim_C3_amended.2.1 0 ["garbage", "Day : y"] (by decide) (by decide)

/-- Claim C4 (confirmed): every produced event is dated
`reference_date + (day_number - 1)` days, and in particular reference date
2025-04-14 with day number 3 gives 2025-04-16. -/
theorem claim_C4 :
    (∀ (refDate : Int) (r : DayRecord) (es : List Event),
      materializeDay refDate r = .ok es →
      ∀ e ∈ es, e.startDate = refDate + (r.day_number : Int) - 1 ∧
        e.endDate = refDate + (r.day_number : Int) - 1)
    ∧ materializeDay ((toOrdinal 2025 4 14 : Nat) : Int) ⟨3, "Algebra", "09:00-10:00"⟩ =
        .ok [mkEvent 3 "Algebra" ((toOrdinal 2025 4 16 : Nat) : Int) (9, 0) (10, 0)] := by
  constructor
  · intro refDate r es h e he
    have h' : processSlots r.day_number r.topics (refDate + (r.day_number : Int) - 1)
        (candidateSlots r) = .ok es := h
    obtain ⟨stv, etv, slot, _, _, heq⟩ := processSlots_ok_mem h' e he
    subst heq
    exact ⟨rfl, rfl⟩
  · rfl

/-- Claim C4, witness: instantiating the dating law at day number 3 over
reference ordinal 739355 (2025-04-14). -/
theorem claim_C4_witness :
    (mkEvent 3 "Algebra" 739357 (9, 0) (10, 0)).startDate =
        (739355 : Int) + ((3 : Nat) : Int) - 1 ∧
    (mkEvent 3 "Algebra" 739357 (9, 0) (10, 0)).endDate =
        (739355 : Int) + ((3 : Nat) : Int) - 1 :=
  claim_C4.1 739355 ⟨3, "Algebra", "09:00-10:00"⟩
    [mkEvent 3 "Algebra" 739357 (9, 0) (10, 0)] (by rfl)
    (mkEvent 3 "Algebra" 739357 (9, 0) (10, 0)) (by simp)

/-- Claim C5 (confirmed): when no interval candidate of a day record raises,
the materializer produces exactly one event per `-`-containing candidate, all
sharing the record's event date; and a record none of whose candidates
contains `-` (zero intervals) yields zero events without error. -/
theorem claim_C5 :
    (∀ (refDate : Int) (r : DayRecord), (∀ s ∈ candidateSlots r, isFailSlot s = false) →
      ∃ es, materializeDay refDate r = .ok es ∧
        es.length = ((candidateSlots r).filter (fun s => s.contains '-')).length ∧
        ∀ e ∈ es, e.startDate = refDate + (r.day_number : Int) - 1 ∧
          e.endDate = refDate + (r.day_number : Int) - 1)
    ∧ (∀ (refDate : Int) (r : DayRecord), (∀ s ∈ candidateSlots r, s.contains '-' = false) →
      materializeDay refDate r = .ok []) := by
  constructor
  · intro refDate r hf
    obtain ⟨es, he, hl⟩ := @processSlots_ok_count r.day_number r.topics
      (refDate + (r.day_number : Int) - 1) (candidateSlots r) hf
    refine ⟨es, he, hl, ?_⟩
    intro e he'
    obtain ⟨stv, etv, slot, _, _, heq⟩ := processSlots_ok_mem he e he'
    subst heq
    exact ⟨rfl, rfl⟩
  · intro refDate r hc
    exact processSlots_all_skip (candidateSlots r) hc

/-- Claim C5, witness: the record of
`Day 1: x / Topics: Algebra / Time Allotted: 09:00-10:00;14:00-15:00` yields
exactly two events. -/
theorem claim_C5_witness :
    ∃ es, materializeDay 0 ⟨1, "Algebra", "09:00-10:00;14:00-15:00"⟩ = .ok es ∧
      es.length = 2 := by
  obtain ⟨es, he, hl, _⟩ :=
    claim_C5.1 0 ⟨1, "Algebra", "09:00-10:00;14:00-15:00"⟩ (by decide)
  exact ⟨es, he, by rw [hl]; decide⟩

/-- Claim C6 (confirmed): every produced event has title
`Study Session: <topics>`, a description embedding the day number and topics,
default reminders off, and exactly the two reminder overrides: email 24 hours
(1440 minutes) before and popup 30 minutes before. -/
theorem claim_C6 :
    ∀ (refDate : Int) (r : DayRecord) (es : List Event),
      materializeDay refDate r = .ok es →
      ∀ e ∈ es, e.summary = "Study Session: " ++ r.topics ∧
        e.description = "Study plan for Day " ++ toString r.day_number ++
          "\n\nTopics: " ++ r.topics ∧
        e.useDefaultReminders = false ∧
        e.reminderOverrides = [("email", 24 * 60), ("popup", 30)] := by
  intro refDate r es h e he
  have h' : processSlots r.day_number r.topics (refDate + (r.day_number : Int) - 1)
      (candidateSlots r) = .ok es := h
  obtain ⟨stv, etv, slot, _, _, heq⟩ := processSlots_ok_mem h' e he
  subst heq
  exact ⟨rfl, rfl, rfl, rfl⟩

/-- Claim C6, witness: the single event of record
`(1, Algebra, 09:00-10:00)` carries the fixed title, description and reminder
policy. -/
theorem claim_C6_witness :
    (mkEvent 1 "Algebra" 0 (9, 0) (10, 0)).summary = "Study Session: " ++ "Algebra" ∧
    (mkEvent 1 "Algebra" 0 (9, 0) (10, 0)).description =
      "Study plan for Day " ++ toString (1 : Nat) ++ "\n\nTopics: " ++ "Algebra" ∧
    (mkEvent 1 "Algebra" 0 (9, 0) (10, 0)).useDefaultReminders = false ∧
    (mkEvent 1 "Algebra" 0 (9, 0) (10, 0)).reminderOverrides =
      [("email", 24 * 60), ("popup", 30)] :=
  claim_C6 0 ⟨1, "Algebra", "09:00-10:00"⟩ [mkEvent 1 "Algebra" 0 (9, 0) (10, 0)]
    (by rfl) (mkEvent 1 "Algebra" 0 (9, 0) (10, 0)) (by simp)

/-- Claim C7 (confirmed): a plan element on which any of the three
regexes fails is excluded (the parser yields a record exactly for valid
blocks), and the parser returns exactly one record per valid block, in input
order, with `day_number` taken verbatim from each block's own matched digit
text. -/
theorem claim_C7 :
    (∀ s : String, parseDay s = if validBlock s then some (extractRecord s) else none)
    ∧ (∀ plan : List String,
      parsePlan plan = (plan.filter validBlock).map extractRecord)
    ∧ (∀ plan : List String,
      (parsePlan plan).length = (plan.filter validBlock).length) := by
  refine ⟨parseDay_eq, parsePlan_eq, ?_⟩
  intro plan
  rw [parsePlan_eq]
  exact List.length_map _ _

/-- Claim C8, counterexample: the block
`Day 1: x Topics: A Time Allotted: 10:00-09:00` is accepted and yields an
event whose start time 10:00 is not before its end time 09:00, refuting the
claimed `start_time < end_time` invariant. -/
theorem claim_C8_counterexample :
    buildEvents 0 ["Day 1: x Topics: A Time Allotted: 10:00-09:00"] =
      .ok [mkEvent 1 "A" 0 (10, 0) (9, 0)] ∧
    ¬ timeLt (mkEvent 1 "A" 0 (10, 0) (9, 0)).startTime
        (mkEvent 1 "A" 0 (10, 0) (9, 0)).endTime := by
  refine ⟨rfl, ?_⟩
  unfold timeLt mkEvent
  simp

/-- Claim C8, amended: parsed interval times are valid wall-clock times
(hour at most 23, minute at most 59) and each event's start and end share the
same date, but no order between start and end time is enforced: an interval
with start not before end is accepted (see the counterexample). -/
theorem claim_C8_amended :
    ∀ (refDate : Int) (r : DayRecord) (es : List Event),
      materializeDay refDate r = .ok es →
      ∀ e ∈ es, e.startTime.1 ≤ 23 ∧ e.startTime.2 ≤ 59 ∧
        e.endTime.1 ≤ 23 ∧ e.endTime.2 ≤ 59 ∧ e.startDate = e.endDate := by
  intro refDate r es h e he
  have h' : processSlots r.day_number r.topics (refDate + (r.day_number : Int) - 1)
      (candidateSlots r) = .ok es := h
  obtain ⟨stv, etv, slot, _, hst, heq⟩ := processSlots_ok_mem h' e he
  obtain ⟨b1, b2, b3, b4⟩ := slotStep_eventIt_bounds hst
  subst heq
  exact ⟨b1, b2, b3, b4, rfl⟩

/-- Claim C8, witness: the inverted interval `10:00-09:00` still satisfies
the amended invariant (valid times, same date), while violating the original
order claim. -/
theorem claim_C8_witness :
    (mkEvent 1 "A" 0 (10, 0) (9, 0)).startTime.1 ≤ 23 ∧
    (mkEvent 1 "A" 0 (10, 0) (9, 0)).startTime.2 ≤ 59 ∧
    (mkEvent 1 "A" 0 (10, 0) (9, 0)).endTime.1 ≤ 23 ∧
    (mkEvent 1 "A" 0 (10, 0) (9, 0)).endTime.2 ≤ 59 ∧
    (mkEvent 1 "A" 0 (10, 0) (9, 0)).startDate = (mkEvent 1 "A" 0 (10, 0) (9, 0)).endDate :=
  claim_C8_amended 0 ⟨1, "A", "10:00-09:00"⟩ [mkEvent 1 "A" 0 (10, 0) (9, 0)]
    (by rfl) (mkEvent 1 "A" 0 (10, 0) (9, 0)) (by simp)

/-- Claim C9, counterexample: for the raw text consisting of the line
(two spaces)``` followed by the line `Day 1`, the code first strips the whole
text, so the fence line loses its indentation and is discarded, while the
claimed line-wise description keeps it (its raw line does not start with the
fence marker): the two disagree. -/
theorem claim_C9_counterexample :
    plan_list_py "  ```\nDay 1" = ["Day 1"] ∧
    specPreprocess "  ```\nDay 1" = ["```", "Day 1"] ∧
    plan_list_py "  ```\nDay 1" ≠ specPreprocess "  ```\nDay 1" := by
  exact ⟨rfl, rfl, by decide⟩

/-- Claim C9, amended: the preprocessing first strips the whole raw text of
surrounding whitespace and only then presents, in order, the trimmed form of
every line that is non-empty after trimming and whose raw form does not start
with the fenced-code marker. -/
theorem claim_C9_amended (raw : String) :
    plan_list_py raw = specPreprocess (pyStrip raw) := by
  rfl

/-- Claim C10 (confirmed): a record is emitted only when all three regexes
match within one single plan element, and a topics match forces
`Time Allotted:` to occur later in that same string (right after the matched
group); a logical day block spread over three plan elements produces no
record and no events. -/
theorem claim_C10 :
    (∀ (s : String) (r : DayRecord), parseDay s = some r →
      ((searchDay s.data).isSome ∧ (searchTopics s.data).isSome ∧
        (searchTime s.data).isSome) ∧
      ∃ g pre rest, s.data =
        pre ++ "Topics: ".data ++ g ++ "Time Allotted:".data ++ rest)
    ∧ parsePlan ["Day 1: x", "Topics: Algebra", "Time Allotted: 09:00-10:00"] = []
    ∧ buildEvents 0 ["Day 1: x", "Topics: Algebra", "Time Allotted: 09:00-10:00"] =
        .ok [] := by
  refine ⟨?_, rfl, rfl⟩
  intro s r h
  unfold parseDay at h
  rcases h1 : searchDay s.data with _ | dm <;> rw [h1] at h
  · exact Option.noConfusion h
  · rcases h2 : searchTopics s.data with _ | tg <;> rw [h2] at h
    · exact Option.noConfusion h
    · rcases h3 : searchTime s.data with _ | tsg <;> rw [h3] at h
      · exact Option.noConfusion h
      · refine ⟨⟨rfl, rfl, rfl⟩, ?_⟩
        obtain ⟨pre, rest, hp⟩ := searchTopics_struct h2
        exact ⟨tg, pre, rest, hp⟩

/-- Claim C10, witness: for the one-line block
`Day 1: x Topics: A Time Allotted: 09:00-10:00`, the theorem yields the
decomposition around `Topics: ` and `Time Allotted:`. -/
theorem claim_C10_witness :
    ∃ g pre rest, ("Day 1: x Topics: A Time Allotted: 09:00-10:00" : String).data =
      pre ++ "Topics: ".data ++ g ++ "Time Allotted:".data ++ rest :=
  (claim_C10.1 "Day 1: x Topics: A Time Allotted: 09:00-10:00"
    ⟨1, "A", "09:00-10:00"⟩ (by rfl)).2

end GoalMine
